import Mathlib

/-!
Verification of the `atterpac/tempo` Temporal TUI against its specification.

Shallow embedding: the Go functions named in the claims are translated into
pure Lean functions (stateful methods become explicit state passing, channel
and UI effects become explicit event values), and the spec's claims are proved
or refuted about those definitions.
-/

namespace Tempo

/-! ## Connection supervisor (`App.connectionMonitor` / `App.attemptReconnect`)

Constants from the source (in seconds): `reconnectInitialBackoff = 2s`,
`reconnectMaxBackoff = 30s`. -/

def reconnectInitialBackoff : Nat := 2

def reconnectMaxBackoff : Nat := 30

/-- The supervisor state carried across ticker cycles: the current backoff
duration (the local `backoff` variable of `connectionMonitor`) and the
`App.reconnecting` flag. -/
structure SupervisorState where
  backoff : Nat
  reconnecting : Bool
deriving DecidableEq, Repr

/-- One `ticker.C` iteration of `App.connectionMonitor`, given whether
`provider.CheckConnection` returned an error.  Returns the new state and,
when a reconnect attempt is spawned (`go a.attemptReconnect(backoff)`),
`some b` where `b` is the backoff the attempt will sleep before dialing. -/
def connectionCheckTick (a : SupervisorState) (checkErr : Bool) :
    SupervisorState × Option Nat :=
  if checkErr then
    if !a.reconnecting then
      let spawned := a.backoff
      let b := a.backoff * 2
      let b := if reconnectMaxBackoff < b then reconnectMaxBackoff else b
      ({ backoff := b, reconnecting := true }, some spawned)
    else
      (a, none)
  else
    ({ backoff := reconnectInitialBackoff, reconnecting := false }, none)

/-- Completion of `App.attemptReconnect`, given whether `provider.Reconnect`
returned an error: on success the queued UI callback clears `reconnecting`;
on failure it changes nothing (the `err != nil` path of the callback is
empty). -/
def attemptReconnectDone (a : SupervisorState) (err : Bool) : SupervisorState :=
  if !err then { a with reconnecting := false } else a

/-! ## `App.Stop` and the stop channel -/

/-- The observable state of the supervisor's `stopMonitor` channel: never
created (`NewApp` leaves it nil), open, or closed. -/
inductive ChanState
  | chanNil
  | chanOpen
  | chanClosed
deriving DecidableEq, Repr

/-- Go's `close(ch)`: closing a nil or already-closed channel panics.
Returns the new channel state and whether the operation panicked. -/
def goClose : ChanState → ChanState × Bool
  | ChanState.chanOpen => (ChanState.chanClosed, false)
  | ChanState.chanNil => (ChanState.chanNil, true)
  | ChanState.chanClosed => (ChanState.chanClosed, true)

/-- `App.Stop`: if `stopMonitor != nil`, a `select` tries to receive from it
(which succeeds exactly when it is already closed) and otherwise takes the
`default` branch, which closes it.  Returns the channel state, the number of
`close` operations performed, and whether anything panicked. -/
def AppStop (s : ChanState) : ChanState × Nat × Bool :=
  match s with
  | ChanState.chanNil => (s, 0, false)
  | ChanState.chanClosed => (s, 0, false)
  | ChanState.chanOpen =>
      let (s2, panicked) := goClose s
      (s2, 1, panicked)

/-- Iterate `App.Stop` `n` times, accumulating the number of `close`
operations and whether any call panicked. -/
def stopN : Nat → ChanState → ChanState × Nat × Bool
  | 0, s => (s, 0, false)
  | n + 1, s =>
      let (s1, c1, p1) := AppStop s
      let (s2, c2, p2) := stopN n s1
      (s2, c1 + c2, p1 || p2)

/-! ## Theme registry (`SetTheme` / `InitTheme`)

`config.LoadTheme` lives outside the embedded sources, so it is abstracted as
an arbitrary function `loadTheme : String → Except ThemeError ParsedTheme`;
the theorems below hold for every such function. -/

abbrev ThemeError := String

structure ParsedTheme where
  paletteName : String
deriving DecidableEq, Repr

/-- The registry's process-wide mutable state: the active palette
(`nil` before `InitTheme`). -/
structure ThemeState where
  activeTheme : Option ParsedTheme
deriving DecidableEq, Repr

/-- `SetTheme(name)`: load the named palette; on error return it leaving the
registry untouched, on success swap in the new palette. -/
def SetTheme (loadTheme : String → Except ThemeError ParsedTheme)
    (st : ThemeState) (name : String) : ThemeState × Option ThemeError :=
  match loadTheme name with
  | Except.error e => (st, some e)
  | Except.ok t => ({ activeTheme := some t }, none)

/-- `InitTheme(name)`: identical store discipline to `SetTheme`. -/
def InitTheme (loadTheme : String → Except ThemeError ParsedTheme)
    (st : ThemeState) (name : String) : ThemeState × Option ThemeError :=
  match loadTheme name with
  | Except.error e => (st, some e)
  | Except.ok t => ({ activeTheme := some t }, none)

/-! ## Workflow list: client-side filter (`WorkflowList.applyFilter`) -/

/-- A workflow row; the fields the filter and the table use.  Go struct
fields `ID`, `Type`, `Status` (`Type` is renamed `WType` because `Type` is a
Lean keyword). -/
structure Workflow where
  ID : String
  WType : String
  Status : String
deriving DecidableEq, Repr

/-- Go's `strings.ToLower`, at rune granularity. -/
def goToLower (s : String) : String := String.mk (s.data.map Char.toLower)

/-- Go's `strings.Contains s sub`: `sub` occurs as a contiguous substring of
`s`. -/
def goContains (s sub : String) : Bool :=
  (List.range (s.data.length + 1)).any
    (fun i => sub.data.isPrefixOf (s.data.drop i))

/-- The per-workflow match of `applyFilter`: the lower-cased filter occurs in
the lower-cased ID, type, or status. -/
def matchesFilter (filter : String) (w : Workflow) : Bool :=
  goContains (goToLower w.ID) filter ||
  goContains (goToLower w.WType) filter ||
  goContains (goToLower w.Status) filter

/-- `WorkflowList.applyFilter`: with empty filter text the visible list is the
full list; otherwise keep exactly the matching workflows, in order. -/
def applyFilter (filterText : String) (allWorkflows : List Workflow) :
    List Workflow :=
  if filterText = "" then allWorkflows
  else allWorkflows.filter (matchesFilter (goToLower filterText))

/-! ## Selection preservation (`populateTable` of both list screens) -/

/-- `WorkflowList.populateTable`, reduced to its selection/preview logic:
given the previously selected row (`table.SelectedRow()`, `-1` when nothing
is selected) and the new visible list, return `none` when the list is empty
(early return: empty state shown, preview cleared), else the selected index
and the item the preview shows. -/
def populateTable (currentRow : Int) (workflows : List Workflow) :
    Option (Nat × Option Workflow) :=
  if workflows.length = 0 then none
  else if 0 ≤ currentRow ∧ currentRow < (workflows.length : Int) then
    some (currentRow.toNat, workflows[currentRow.toNat]?)
  else
    some (0, workflows[0]?)

/-- An event-history row; the fields its table uses. -/
structure HistoryEvent where
  ID : Nat
  EType : String
  Details : String
deriving DecidableEq, Repr

/-- `EventHistory.populateTable`: same selection/preview discipline as the
workflow list (side panel instead of preview). -/
def eventHistoryPopulateTable (currentRow : Int) (events : List HistoryEvent) :
    Option (Nat × Option HistoryEvent) :=
  if events.length = 0 then none
  else if 0 ≤ currentRow ∧ currentRow < (events.length : Int) then
    some (currentRow.toNat, events[currentRow.toNat]?)
  else
    some (0, events[0]?)

/-! ## Search history (`addToHistory`, `historyPrevious`, `historyNext`) -/

def maxHistorySize : Nat := 50

/-- The slice of `WorkflowList` state the history methods touch. -/
structure WorkflowListHistory where
  searchHistory : List String
  historyIndex : Int
  visibilityQuery : String
deriving DecidableEq, Repr

/-- The history state of `NewWorkflowList`: empty history, index `-1`. -/
def newWorkflowListHistory : WorkflowListHistory :=
  { searchHistory := [], historyIndex := -1, visibilityQuery := "" }

/-- `WorkflowList.addToHistory`: ignore the empty query; ignore a query equal
to the last entry; otherwise remove the first earlier occurrence
(`List.erase` is exactly the source's remove-first-match-and-break loop),
append at the end, drop the oldest entry when over `maxHistorySize`, and
reset the browse index. -/
def addToHistory (wl : WorkflowListHistory) (query : String) :
    WorkflowListHistory :=
  if query = "" then wl
  else if wl.searchHistory.getLast? = some query then wl
  else
    { wl with
      searchHistory :=
        if maxHistorySize < (wl.searchHistory.erase query ++ [query]).length
        then (wl.searchHistory.erase query ++ [query]).drop 1
        else wl.searchHistory.erase query ++ [query]
      historyIndex := -1 }

/-- `WorkflowList.historyPrevious`: with empty history return the current
visibility query; from index `-1` start at the newest entry; otherwise step
back, saturating at `0`.  Returns the entry shown and the new state. -/
def historyPrevious (wl : WorkflowListHistory) :
    String × WorkflowListHistory :=
  if wl.searchHistory.length = 0 then (wl.visibilityQuery, wl)
  else
    let idx : Int :=
      if wl.historyIndex = -1 then (wl.searchHistory.length : Int) - 1
      else if 0 < wl.historyIndex then wl.historyIndex - 1
      else wl.historyIndex
    (wl.searchHistory.getD idx.toNat "", { wl with historyIndex := idx })

/-- `WorkflowList.historyNext`: with empty history or when not browsing
return the current visibility query; before the newest entry step forward;
past the end return the empty string and stop browsing. -/
def historyNext (wl : WorkflowListHistory) : String × WorkflowListHistory :=
  if wl.searchHistory.length = 0 ∨ wl.historyIndex = -1 then
    (wl.visibilityQuery, wl)
  else if wl.historyIndex < (wl.searchHistory.length : Int) - 1 then
    let idx := wl.historyIndex + 1
    (wl.searchHistory.getD idx.toNat "", { wl with historyIndex := idx })
  else
    ("", { wl with historyIndex := -1 })

/-- Fold a sequence of submitted queries through `addToHistory`, starting
from the fresh `NewWorkflowList` state. -/
def runHistory (qs : List String) : WorkflowListHistory :=
  qs.foldl addToHistory newWorkflowListHistory

/-! ## Batch operations (`executeBatchCancel` / `executeBatchTerminate`) -/

/-- An item of the batch confirmation modal. -/
structure BatchItem where
  ID : String
  RunID : String
deriving DecidableEq, Repr

/-- `temporal.WorkflowIdentifier`. -/
structure WorkflowIdentifier where
  WorkflowID : String
  RunID : String
deriving DecidableEq, Repr

/-- One per-item result of a batched Provider call. -/
structure BatchOperationResult where
  Success : Bool
  Error : String
deriving DecidableEq, Repr

/-- The observable effects a batch executor performs on the modal and the
list after the Provider call returns. -/
inductive BatchEvent
  | markCompleted (i : Nat)
  | markFailed (i : Nat) (reason : String)
  | refreshList
  | clearSelection
deriving DecidableEq, Repr

/-- The single batched Provider call a batch executor issues: which method,
on which namespace and identifiers, with which reason and context timeout
(seconds). -/
structure ProviderBatchCall where
  opName : String
  nsArg : String
  workflows : List WorkflowIdentifier
  reason : Option String
  timeoutSeconds : Nat
deriving DecidableEq, Repr

/-- The `for i, result := range results` loop of both batch executors: mark
item `i` completed when `results[i].Success`, else failed with
`results[i].Error`. -/
def batchMarks : Nat → List BatchOperationResult → List BatchEvent
  | _, [] => []
  | i, r :: rs =>
      (if r.Success then BatchEvent.markCompleted i
       else BatchEvent.markFailed i r.Error) :: batchMarks (i + 1) rs

/-- `WorkflowList.executeBatchTerminate`: one `TerminateWorkflows` call with
a 60s context deadline and the fixed reason string, then the per-result
marks, then refresh (`loadData`) and `table.ClearSelection()`. -/
def executeBatchTerminate (ns : String) (items : List BatchItem)
    (results : List BatchOperationResult) :
    ProviderBatchCall × List BatchEvent :=
  ({ opName := "TerminateWorkflows"
     nsArg := ns
     workflows := items.map (fun it => { WorkflowID := it.ID, RunID := it.RunID })
     reason := some "Terminated via TUI batch operation"
     timeoutSeconds := 60 },
   batchMarks 0 results ++ [BatchEvent.refreshList, BatchEvent.clearSelection])

/-- `WorkflowList.executeBatchCancel`: one `CancelWorkflows` call with a 60s
context deadline (cancels take no reason), then the per-result marks, then
refresh and clear-selection. -/
def executeBatchCancel (ns : String) (items : List BatchItem)
    (results : List BatchOperationResult) :
    ProviderBatchCall × List BatchEvent :=
  ({ opName := "CancelWorkflows"
     nsArg := ns
     workflows := items.map (fun it => { WorkflowID := it.ID, RunID := it.RunID })
     reason := none
     timeoutSeconds := 60 },
   batchMarks 0 results ++ [BatchEvent.refreshList, BatchEvent.clearSelection])

/-! ## Single-target mutations (`ScheduleList.executePauseSchedule`,
`ScheduleList.executeDeleteSchedule`) -/

/-- The ordered observable effects of a single-target mutation handler. -/
inductive UIEvent
  | providerCall (opName : String)
  | closeModal (pageName : String)
  | showError (message : String)
  | refreshData
deriving DecidableEq, Repr

/-- `ScheduleList.executePauseSchedule`, as its effect trace given the error
the Provider call returned (`none` = success): call, then in the queued UI
callback close the modal, then either show the error or reload the data. -/
def executePauseSchedule (err : Option String) : List UIEvent :=
  [UIEvent.providerCall "PauseSchedule",
   UIEvent.closeModal "confirm-pause"] ++
  (match err with
   | some e => [UIEvent.showError e]
   | none => [UIEvent.refreshData])

/-- `ScheduleList.executeDeleteSchedule`: same shape as pause. -/
def executeDeleteSchedule (err : Option String) : List UIEvent :=
  [UIEvent.providerCall "DeleteSchedule",
   UIEvent.closeModal "confirm-delete-schedule"] ++
  (match err with
   | some e => [UIEvent.showError e]
   | none => [UIEvent.refreshData])

/-! ## Concrete queries for the history-browsing scenario (S6)

The scenario's query strings contain single quotes; they are assembled from
`Char.ofNat 39` to keep the sources plain. -/

def singleQuote : String := String.mk [Char.ofNat 39]

def qRunning : String :=
  "ExecutionStatus=" ++ singleQuote ++ "Running" ++ singleQuote

def qOrder : String :=
  "WorkflowType=" ++ singleQuote ++ "OrderWorkflow" ++ singleQuote

def qFailed : String :=
  "ExecutionStatus=" ++ singleQuote ++ "Failed" ++ singleQuote

/-! ## Theorems -/

/-- Claim C1: the spec says a failed reconnect attempt clears `reconnecting`
so the next ticker cycle may spawn a new attempt with doubled backoff
(`min(B0 * 2^(k-1), B_max)` before the k-th attempt).  Evaluating the code at
the failing trace: the first failed check spawns a 2s attempt and sets
`reconnecting`; the attempt fails and leaves `reconnecting` set (only the
success path of `attemptReconnect` clears it); the next failed check
therefore spawns nothing, where the spec — and the code's own comment
"the next connectionMonitor tick will retry" — require a second attempt with
a 4s sleep. -/
theorem connectionMonitor_failedReconnect_not_retried :
    (connectionCheckTick ⟨reconnectInitialBackoff, false⟩ true).2 = some 2 ∧
    (attemptReconnectDone
      (connectionCheckTick ⟨reconnectInitialBackoff, false⟩ true).1
      true).reconnecting = true ∧
    (connectionCheckTick
      (attemptReconnectDone
        (connectionCheckTick ⟨reconnectInitialBackoff, false⟩ true).1 true)
      true).2 = none := by
  decide

/-- Claim C9: `addToHistory` with the empty string changes nothing: the
history list and the browse index are exactly as before. -/
theorem addToHistory_empty_noop (wl : WorkflowListHistory) :
    addToHistory wl "" = wl := by
  simp [addToHistory]

/-- Claim C8 (scenario S6): after submitting `ExecutionStatus='Running'`,
`WorkflowType='OrderWorkflow'`, `ExecutionStatus='Failed'`, three
`historyPrevious` calls return Failed, OrderWorkflow, Running, and three
`historyNext` calls from there return OrderWorkflow, Failed, then the empty
string with the browse index reset to `-1`. -/
theorem history_browsing_scenario_s6 :
    (historyPrevious (runHistory [qRunning, qOrder, qFailed])).1 = qFailed ∧
    (historyPrevious
      (historyPrevious (runHistory [qRunning, qOrder, qFailed])).2).1 =
      qOrder ∧
    (historyPrevious (historyPrevious
      (historyPrevious (runHistory [qRunning, qOrder, qFailed])).2).2).1 =
      qRunning ∧
    (historyNext (historyPrevious (historyPrevious
      (historyPrevious (runHistory [qRunning, qOrder, qFailed])).2).2).2).1 =
      qOrder ∧
    (historyNext (historyNext (historyPrevious (historyPrevious
      (historyPrevious (runHistory [qRunning, qOrder, qFailed])).2).2).2).2).1 =
      qFailed ∧
    (historyNext (historyNext (historyNext (historyPrevious (historyPrevious
      (historyPrevious (runHistory [qRunning, qOrder, qFailed])).2).2).2).2).2).1 =
      "" ∧
    (historyNext (historyNext (historyNext (historyPrevious (historyPrevious
      (historyPrevious
        (runHistory [qRunning, qOrder, qFailed])).2).2).2).2).2).2.historyIndex =
      -1 := by
  decide

lemma stopN_chanNil (n : Nat) :
    stopN n ChanState.chanNil = (ChanState.chanNil, 0, false) := by
  induction n with
  | zero => rfl
  | succ n ih => simp [stopN, AppStop, ih]

lemma stopN_chanClosed (n : Nat) :
    stopN n ChanState.chanClosed = (ChanState.chanClosed, 0, false) := by
  induction n with
  | zero => rfl
  | succ n ih => simp [stopN, AppStop, ih]

/-- Claim C10: iterating `App.Stop` any number of times from any channel
state (nil channel included) performs at most one `close` and never panics:
no close of a nil or already-closed channel ever happens. -/
theorem appStop_idempotent_safe (n : Nat) (s : ChanState) :
    (stopN n s).2.2 = false ∧ (stopN n s).2.1 ≤ 1 := by
  cases s with
  | chanNil => simp [stopN_chanNil]
  | chanClosed => simp [stopN_chanClosed]
  | chanOpen =>
      cases n with
      | zero => simp [stopN]
      | succ n => simp [stopN, AppStop, goClose, stopN_chanClosed]

/-- Claim C6: a failed palette load (for every load function, so for unknown
names and malformed palettes alike) leaves the active theme exactly as it
was and returns the error; a successful load replaces the active palette
with the loaded one in a single store.  Both `SetTheme` and `InitTheme`. -/
theorem setTheme_error_atomicity
    (load : String → Except ThemeError ParsedTheme)
    (st : ThemeState) (name : String) :
    (∀ e, load name = Except.error e → SetTheme load st name = (st, some e)) ∧
    (∀ t, load name = Except.ok t →
      SetTheme load st name = ({ activeTheme := some t }, none)) ∧
    (∀ e, load name = Except.error e → InitTheme load st name = (st, some e)) ∧
    (∀ t, load name = Except.ok t →
      InitTheme load st name = ({ activeTheme := some t }, none)) := by
  refine ⟨fun e he => ?_, fun t ht => ?_, fun e he => ?_, fun t ht => ?_⟩
  · simp [SetTheme, he]
  · simp [SetTheme, ht]
  · simp [InitTheme, he]
  · simp [InitTheme, ht]

/-- Witness for C6 at a concrete load function: loading the unknown name
fails and leaves the active `default` palette in place; loading `gruvbox`
installs it. -/
theorem setTheme_error_atomicity_witness :
    SetTheme
      (fun nm => if nm = "gruvbox" then Except.ok { paletteName := "gruvbox" }
                 else Except.error "unknown theme")
      { activeTheme := some { paletteName := "default" } } "nosuch" =
      ({ activeTheme := some { paletteName := "default" } },
        some "unknown theme") ∧
    SetTheme
      (fun nm => if nm = "gruvbox" then Except.ok { paletteName := "gruvbox" }
                 else Except.error "unknown theme")
      { activeTheme := some { paletteName := "default" } } "gruvbox" =
      ({ activeTheme := some { paletteName := "gruvbox" } }, none) := by
  refine ⟨?_, ?_⟩
  · exact (setTheme_error_atomicity
      (fun nm => if nm = "gruvbox" then Except.ok { paletteName := "gruvbox" }
                 else Except.error "unknown theme")
      { activeTheme := some { paletteName := "default" } } "nosuch").1
      "unknown theme" (by rfl)
  · exact (setTheme_error_atomicity
      (fun nm => if nm = "gruvbox" then Except.ok { paletteName := "gruvbox" }
                 else Except.error "unknown theme")
      { activeTheme := some { paletteName := "default" } } "gruvbox").2.1
      { paletteName := "gruvbox" } (by rfl)

/-- Counterexample to claim C5 as stated: after a failed pause or delete the
handler shows the error but does not refresh the screen (`loadData` runs
only on the success path), so "the invoking screen then refreshes its data"
is false at a failed mutation. -/
theorem mutation_error_refresh_counterexample :
    UIEvent.refreshData ∉ executePauseSchedule (some "connection refused") ∧
    UIEvent.refreshData ∉ executeDeleteSchedule (some "connection refused") := by
  decide

/-- Claim C5 (amended): both single-target schedule mutations first issue the
Provider call, then — only after it completes — close their confirmation
modal; on error they display the error adjacent to the screen (and do not
refresh), on success they refresh the screen's data. -/
theorem mutation_error_handling_amended (err : Option String) :
    (∀ e, err = some e →
      executePauseSchedule err =
        [UIEvent.providerCall "PauseSchedule",
         UIEvent.closeModal "confirm-pause", UIEvent.showError e] ∧
      executeDeleteSchedule err =
        [UIEvent.providerCall "DeleteSchedule",
         UIEvent.closeModal "confirm-delete-schedule", UIEvent.showError e]) ∧
    (err = none →
      executePauseSchedule err =
        [UIEvent.providerCall "PauseSchedule",
         UIEvent.closeModal "confirm-pause", UIEvent.refreshData] ∧
      executeDeleteSchedule err =
        [UIEvent.providerCall "DeleteSchedule",
         UIEvent.closeModal "confirm-delete-schedule",
         UIEvent.refreshData]) := by
  refine ⟨fun e he => ?_, fun he => ?_⟩ <;>
    simp [executePauseSchedule, executeDeleteSchedule, he]

/-- Witness for the amended C5 at a concrete failed mutation. -/
theorem mutation_error_handling_amended_witness :
    executePauseSchedule (some "boom") =
      [UIEvent.providerCall "PauseSchedule",
       UIEvent.closeModal "confirm-pause", UIEvent.showError "boom"] ∧
    executeDeleteSchedule (some "boom") =
      [UIEvent.providerCall "DeleteSchedule",
       UIEvent.closeModal "confirm-delete-schedule",
       UIEvent.showError "boom"] :=
  (mutation_error_handling_amended (some "boom")).1 "boom" rfl

lemma addToHistory_length_le (wl : WorkflowListHistory) (q : String)
    (h : wl.searchHistory.length ≤ maxHistorySize) :
    (addToHistory wl q).searchHistory.length ≤ maxHistorySize := by
  have he : (wl.searchHistory.erase q).length ≤ wl.searchHistory.length :=
    List.length_erase_le q _
  unfold addToHistory
  split
  · exact h
  · split
    · exact h
    · simp only [List.length_append, List.length_drop]
      split
      · simp_all
        omega
      · simp_all

lemma addToHistory_nodup (wl : WorkflowListHistory) (q : String)
    (h : wl.searchHistory.Nodup) :
    (addToHistory wl q).searchHistory.Nodup := by
  have hq : q ∉ wl.searchHistory.erase q := fun hm =>
    ((List.Nodup.mem_erase_iff h).1 hm).1 rfl
  have h2 : ((wl.searchHistory.erase q) ++ [q]).Nodup := by
    rw [List.nodup_append]
    refine ⟨h.erase q, List.nodup_singleton q, fun a ha hb => ?_⟩
    simp only [List.mem_singleton] at hb
    exact hq (hb ▸ ha)
  unfold addToHistory
  split
  · exact h
  · split
    · exact h
    · simp only
      split
      · exact (List.drop_sublist 1 _).nodup h2
      · exact h2

lemma drop_one_concat {α : Type} (l : List α) (q : α) (hl : l ≠ []) :
    (l ++ [q]).drop 1 = l.drop 1 ++ [q] := by
  have hlen : 1 ≤ l.length := by
    cases l with
    | nil => exact absurd rfl hl
    | cons a t => simp
  rw [List.drop_append_eq_append_drop]
  have : 1 - l.length = 0 := by omega
  rw [this]
  rfl

lemma addToHistory_last (wl : WorkflowListHistory) (q : String)
    (hn : wl.searchHistory.Nodup) (hq : q ≠ "") :
    (addToHistory wl q).searchHistory.getLast? = some q ∧
    q ∉ (addToHistory wl q).searchHistory.dropLast := by
  unfold addToHistory
  rw [if_neg hq]
  by_cases hlast : wl.searchHistory.getLast? = some q
  · rw [if_pos hlast]
    refine ⟨hlast, ?_⟩
    have hne : wl.searchHistory ≠ [] := by
      intro h0
      rw [h0] at hlast
      exact Option.noConfusion hlast
    have hgl : wl.searchHistory.getLast hne = q := by
      have hg := List.getLast?_eq_getLast_of_ne_nil hne
      rw [hg] at hlast
      exact Option.some.inj hlast
    have hdec := List.dropLast_append_getLast hne
    rw [← hdec] at hn
    rcases List.nodup_append.1 hn with ⟨-, -, hdisj⟩
    intro hmem
    exact hdisj hmem (by rw [hgl]; exact List.mem_singleton.2 rfl)
  · rw [if_neg hlast]
    have hqe : q ∉ wl.searchHistory.erase q := fun hm =>
      ((List.Nodup.mem_erase_iff hn).1 hm).1 rfl
    simp only
    split
    · next htrim =>
        have hene : wl.searchHistory.erase q ≠ [] := by
          intro h0
          rw [h0] at htrim
          simp [maxHistorySize] at htrim
        rw [drop_one_concat _ _ hene]
        refine ⟨List.getLast?_concat _, ?_⟩
        rw [List.dropLast_concat]
        exact fun hm => hqe (List.mem_of_mem_drop hm)
    · refine ⟨List.getLast?_concat _, ?_⟩
      rw [List.dropLast_concat]
      exact hqe

lemma runHistory_inv (qs : List String) (st : WorkflowListHistory)
    (h : st.searchHistory.length ≤ maxHistorySize ∧ st.searchHistory.Nodup) :
    (qs.foldl addToHistory st).searchHistory.length ≤ maxHistorySize ∧
    (qs.foldl addToHistory st).searchHistory.Nodup := by
  induction qs generalizing st with
  | nil => exact h
  | cons q qs ih =>
      exact ih (addToHistory st q)
        ⟨addToHistory_length_le st q h.1, addToHistory_nodup st q h.2⟩

/-- Claim C2: starting from the empty history, after any sequence of
`addToHistory` calls the history holds at most 50 entries and has no two
consecutive equal entries (in fact it is duplicate-free), and adding any
non-empty query leaves a history that ends in that query with no earlier
occurrence of it remaining. -/
theorem addToHistory_deque_invariant (qs : List String) (q : String)
    (hq : q ≠ "") :
    (runHistory qs).searchHistory.length ≤ 50 ∧
    (runHistory qs).searchHistory.Chain' (fun a b => a ≠ b) ∧
    (addToHistory (runHistory qs) q).searchHistory.getLast? = some q ∧
    q ∉ (addToHistory (runHistory qs) q).searchHistory.dropLast := by
  have hinv := runHistory_inv qs newWorkflowListHistory
    ⟨by simp [newWorkflowListHistory, maxHistorySize],
     by simp [newWorkflowListHistory]⟩
  have hlast := addToHistory_last (runHistory qs) q hinv.2 hq
  exact ⟨hinv.1, hinv.2.chain', hlast.1, hlast.2⟩

/-- Witness for C2: the concrete sequence `a, b, a` followed by re-adding
`b`, which exists elsewhere in the history. -/
theorem addToHistory_deque_invariant_witness :
    (runHistory ["a", "b", "a"]).searchHistory.length ≤ 50 ∧
    (runHistory ["a", "b", "a"]).searchHistory.Chain' (fun a b => a ≠ b) ∧
    (addToHistory (runHistory ["a", "b", "a"]) "b").searchHistory.getLast? =
      some "b" ∧
    "b" ∉ (addToHistory (runHistory ["a", "b", "a"]) "b").searchHistory.dropLast :=
  addToHistory_deque_invariant ["a", "b", "a"] "b" (by decide)

/-- Claim C3: on a refresh, when the previously selected position is still
valid in the new list both screens keep it and preview the item at that
position; otherwise, on a non-empty list, the selection falls back to
index 0. -/
theorem populateTable_selection_preserved (r : Int) (ws : List Workflow)
    (evs : List HistoryEvent) :
    (0 ≤ r → r < (ws.length : Int) →
      populateTable r ws = some (r.toNat, ws[r.toNat]?)) ∧
    (ws ≠ [] → ¬(0 ≤ r ∧ r < (ws.length : Int)) →
      populateTable r ws = some (0, ws[0]?)) ∧
    (0 ≤ r → r < (evs.length : Int) →
      eventHistoryPopulateTable r evs = some (r.toNat, evs[r.toNat]?)) ∧
    (evs ≠ [] → ¬(0 ≤ r ∧ r < (evs.length : Int)) →
      eventHistoryPopulateTable r evs = some (0, evs[0]?)) := by
  refine ⟨fun h1 h2 => ?_, fun hne hnot => ?_, fun h1 h2 => ?_,
    fun hne hnot => ?_⟩
  · have hlen : ws.length ≠ 0 := by omega
    unfold populateTable
    rw [if_neg hlen, if_pos ⟨h1, h2⟩]
  · have hlen : ws.length ≠ 0 := fun h0 => hne (List.length_eq_zero.1 h0)
    unfold populateTable
    rw [if_neg hlen, if_neg hnot]
  · have hlen : evs.length ≠ 0 := by omega
    unfold eventHistoryPopulateTable
    rw [if_neg hlen, if_pos ⟨h1, h2⟩]
  · have hlen : evs.length ≠ 0 := fun h0 => hne (List.length_eq_zero.1 h0)
    unfold eventHistoryPopulateTable
    rw [if_neg hlen, if_neg hnot]

/-- Witness for C3: a still-valid position 1 is kept with its item
previewed, and an out-of-range position 5 falls back to row 0. -/
theorem populateTable_selection_preserved_witness :
    populateTable 1
      [{ ID := "a", WType := "T", Status := "Running" },
       { ID := "b", WType := "U", Status := "Failed" }] =
      some (1, some { ID := "b", WType := "U", Status := "Failed" }) ∧
    eventHistoryPopulateTable 5 [{ ID := 1, EType := "E", Details := "d" }] =
      some (0, some { ID := 1, EType := "E", Details := "d" }) := by
  constructor
  · have h := (populateTable_selection_preserved 1
      [{ ID := "a", WType := "T", Status := "Running" },
       { ID := "b", WType := "U", Status := "Failed" }]
      [{ ID := 1, EType := "E", Details := "d" }]).1 (by decide) (by decide)
    rw [h]
    rfl
  · have h := (populateTable_selection_preserved 5
      [{ ID := "a", WType := "T", Status := "Running" },
       { ID := "b", WType := "U", Status := "Failed" }]
      [{ ID := 1, EType := "E", Details := "d" }]).2.2.2
      (by decide) (by decide)
    rw [h]
    rfl

lemma goContains_iff (s sub : String) :
    goContains s sub = true ↔ sub.data <:+: s.data := by
  unfold goContains
  rw [List.any_eq_true]
  constructor
  · rintro ⟨i, -, hp⟩
    rw [List.isPrefixOf_iff_prefix] at hp
    exact List.infix_iff_prefix_suffix.2 ⟨_, hp, List.drop_suffix i _⟩
  · intro hinf
    rcases hinf with ⟨t, u, heq⟩
    refine ⟨t.length, List.mem_range.2 ?_, ?_⟩
    · have hlen : s.data.length = t.length + sub.data.length + u.length := by
        rw [← heq]
        simp [List.length_append]
        omega
      omega
    · rw [List.isPrefixOf_iff_prefix, ← heq, List.append_assoc,
        List.drop_left]
      exact ⟨u, rfl⟩

/-- Claim C4: the visible list is a subsequence of the fetched list in
dataset order; every visible workflow contains the case-folded filter text
as a substring of its case-folded id, type, or status; and the empty filter
shows the full list. -/
theorem applyFilter_correct (ft : String) (all : List Workflow) :
    List.Sublist (applyFilter ft all) all ∧
    (∀ w ∈ applyFilter ft all,
      (goToLower ft).data <:+: (goToLower w.ID).data ∨
      (goToLower ft).data <:+: (goToLower w.WType).data ∨
      (goToLower ft).data <:+: (goToLower w.Status).data) ∧
    (ft = "" → applyFilter ft all = all) := by
  refine ⟨?_, ?_, fun hft => ?_⟩
  · unfold applyFilter
    split
    · exact List.Sublist.refl all
    · exact List.filter_sublist all
  · intro w hw
    unfold applyFilter at hw
    split at hw
    · next hft =>
        subst hft
        left
        show ([] : List Char).map Char.toLower <:+: _
        exact List.nil_infix
    · have hm := (List.mem_filter.1 hw).2
      unfold matchesFilter at hm
      rw [Bool.or_eq_true, Bool.or_eq_true] at hm
      rcases hm with (h | h) | h
      · exact Or.inl ((goContains_iff _ _).1 h)
      · exact Or.inr (Or.inl ((goContains_iff _ _).1 h))
      · exact Or.inr (Or.inr ((goContains_iff _ _).1 h))
  · unfold applyFilter
    rw [if_pos hft]

/-- Witness for C4 at concrete inputs: the filter `Ord` keeps exactly the
matching workflow (whose lower-cased type contains `ord`), and the empty
filter shows everything. -/
theorem applyFilter_correct_witness :
    ((goToLower "Ord").data <:+:
        (goToLower "order-1").data ∨
      (goToLower "Ord").data <:+: (goToLower "OrderWorkflow").data ∨
      (goToLower "Ord").data <:+: (goToLower "Running").data) ∧
    applyFilter ""
      [{ ID := "pay-2", WType := "PaymentWorkflow", Status := "Completed" }] =
      [{ ID := "pay-2", WType := "PaymentWorkflow", Status := "Completed" }] := by
  constructor
  · exact (applyFilter_correct "Ord"
      [{ ID := "order-1", WType := "OrderWorkflow", Status := "Running" },
       { ID := "pay-2", WType := "PaymentWorkflow", Status := "Completed" }]).2.1
      { ID := "order-1", WType := "OrderWorkflow", Status := "Running" }
      (by decide)
  · exact (applyFilter_correct ""
      [{ ID := "pay-2", WType := "PaymentWorkflow", Status := "Completed" }]).2.2
      rfl

lemma batchMarks_length (k : Nat) (rs : List BatchOperationResult) :
    (batchMarks k rs).length = rs.length := by
  induction rs generalizing k with
  | nil => rfl
  | cons r t ih => simp [batchMarks, ih]

lemma batchMarks_getElem (rs : List BatchOperationResult) (k i : Nat)
    (r : BatchOperationResult) (h : rs[i]? = some r) :
    (batchMarks k rs)[i]? =
      some (if r.Success then BatchEvent.markCompleted (k + i)
            else BatchEvent.markFailed (k + i) r.Error) := by
  induction rs generalizing k i with
  | nil => simp at h
  | cons a t ih =>
      cases i with
      | zero =>
          simp only [List.getElem?_cons_zero, Option.some.injEq] at h
          subst h
          simp [batchMarks]
      | succ n =>
          simp only [List.getElem?_cons_succ] at h
          have hk : k + (n + 1) = (k + 1) + n := by omega
          rw [hk]
          simpa [batchMarks] using ih (k + 1) n h

/-- Claim C7: both batch executors issue exactly one Provider call carrying
a 60-second deadline regardless of batch size, the terminate call carries
the fixed reason string, per-result item `i` is marked completed exactly
when result `i` succeeded and failed with that result's error otherwise,
and after all marks the list refreshes and the multi-selection is
cleared. -/
theorem batch_operation_semantics (ns : String) (items : List BatchItem)
    (results : List BatchOperationResult) :
    (executeBatchTerminate ns items results).1.reason =
      some "Terminated via TUI batch operation" ∧
    (executeBatchTerminate ns items results).1.timeoutSeconds = 60 ∧
    (executeBatchCancel ns items results).1.timeoutSeconds = 60 ∧
    (executeBatchTerminate ns items results).1.workflows =
      items.map (fun it => { WorkflowID := it.ID, RunID := it.RunID }) ∧
    (∀ (i : Nat) (r : BatchOperationResult), results[i]? = some r →
      ((executeBatchTerminate ns items results).2)[i]? =
        some (if r.Success then BatchEvent.markCompleted i
              else BatchEvent.markFailed i r.Error) ∧
      ((executeBatchCancel ns items results).2)[i]? =
        some (if r.Success then BatchEvent.markCompleted i
              else BatchEvent.markFailed i r.Error)) ∧
    ((executeBatchTerminate ns items results).2)[results.length]? =
      some BatchEvent.refreshList ∧
    ((executeBatchTerminate ns items results).2)[results.length + 1]? =
      some BatchEvent.clearSelection ∧
    ((executeBatchCancel ns items results).2)[results.length]? =
      some BatchEvent.refreshList ∧
    ((executeBatchCancel ns items results).2)[results.length + 1]? =
      some BatchEvent.clearSelection := by
  have hmark : ∀ (i : Nat) (r : BatchOperationResult), results[i]? = some r →
      (batchMarks 0 results ++
        [BatchEvent.refreshList, BatchEvent.clearSelection])[i]? =
        some (if r.Success then BatchEvent.markCompleted i
              else BatchEvent.markFailed i r.Error) := by
    intro i r h
    have hi : i < results.length := by
      by_contra hge
      rw [List.getElem?_eq_none (by omega)] at h
      exact Option.noConfusion h
    rw [List.getElem?_append_left (by rw [batchMarks_length]; exact hi)]
    simpa using batchMarks_getElem results 0 i r h
  have hrefresh :
      (batchMarks 0 results ++
        [BatchEvent.refreshList, BatchEvent.clearSelection])[results.length]? =
        some BatchEvent.refreshList := by
    rw [List.getElem?_append_right (by rw [batchMarks_length])]
    simp [batchMarks_length]
  have hclear :
      (batchMarks 0 results ++
        [BatchEvent.refreshList,
         BatchEvent.clearSelection])[results.length + 1]? =
        some BatchEvent.clearSelection := by
    rw [List.getElem?_append_right (by rw [batchMarks_length]; omega)]
    simp [batchMarks_length]
  exact ⟨rfl, rfl, rfl, rfl,
    fun i r h => ⟨hmark i r h, hmark i r h⟩,
    hrefresh, hclear, hrefresh, hclear⟩

/-- Witness for C7: a two-item batch with one success and one failure. -/
theorem batch_operation_semantics_witness :
    ((executeBatchTerminate "default"
      [{ ID := "wf-1", RunID := "r1" }, { ID := "wf-2", RunID := "r2" }]
      [{ Success := true, Error := "" },
       { Success := false, Error := "not found" }]).2)[1]? =
      some (BatchEvent.markFailed 1 "not found") := by
  have h := (batch_operation_semantics "default"
    [{ ID := "wf-1", RunID := "r1" }, { ID := "wf-2", RunID := "r2" }]
    [{ Success := true, Error := "" },
     { Success := false, Error := "not found" }]).2.2.2.2.1 1
    { Success := false, Error := "not found" } rfl
  simpa using h.1

end Tempo
